import Mathlib

/-!
# Verification of the coros-analyzer activity-analysis engine

A shallow embedding of the engine's numeric core, translated from the
TypeScript sources:

* `src/services/plans.ts` (the TCX parser `parseTCX` and its streaming
  summary accumulation),
* the analytics module (`calculateGAP`, `calculateDecoupling`,
  `calculateZones`, `getZoneDistribution`, `calculateTrainingEffect`).

JavaScript numbers are modelled as exact rationals (`ℚ`).  A JavaScript
division whose denominator can be zero (producing `Infinity`/`NaN`) is
modelled by `jsDiv : ℚ → ℚ → Option ℚ`, where `none` stands for a
non-finite result; divisions whose denominators are guarded non-zero by
the surrounding code are modelled by plain rational division.
`Math.round` is modelled by `jsRound` (round half toward +∞), and JS
truthiness of an optional numeric field by `truthy`.  Timestamps are
rationals in milliseconds (the value of `Date.getTime()`).
-/

/-- JS `Math.round`: round half toward positive infinity. -/
def jsRound (q : ℚ) : ℤ := ⌊q + 1/2⌋

/-- JS division that can produce a non-finite value: `none` models the
`Infinity`/`NaN` produced when the denominator is `0`. -/
def jsDiv (a b : ℚ) : Option ℚ := if b = 0 then none else some (a / b)

/-- JS truthiness of an optional numeric field (`undefined` and `0` are
falsy, every other number is truthy). -/
def truthy (x : Option ℚ) : Bool := decide (x.getD 0 ≠ 0)

/-- One track sample (`TrackPoint` in `types.ts`).  `time` is the
timestamp in milliseconds; a `none` field models a value that was
missing or failed numeric parsing (`NaN → undefined` in `parseTCX`). -/
structure TrackPoint where
  time : ℚ
  lat : Option ℚ := none
  lng : Option ℚ := none
  altitude : Option ℚ := none
  distance : Option ℚ := none
  hr : Option ℚ := none
deriving DecidableEq

/-- The consecutive pairs `(points[i-1], points[i])` that every
single-pass loop of the engine iterates over. -/
def consecutivePairs (l : List α) : List (α × α) := l.zip l.tail

/-- Structure `Lap` from `types.ts` (the parser always returns an empty lap list). -/
structure Lap where
  id : ℚ
  distance : ℚ
  time : ℚ
  avgPace : ℚ
  avgHR : ℚ
deriving DecidableEq

/-- The summary block computed by `parseTCX`.  `avgPace` is an
`Option ℚ` because its division is not guarded against a zero
denominator (`none` = the non-finite JS number). -/
structure Summary where
  totalDistance : ℚ
  elapsedTime : ℚ
  movingTime : ℚ
  avgHR : ℚ
  maxHR : ℚ
  totalAscent : ℚ
  totalDescent : ℚ
  avgPace : Option ℚ
  maxPace : ℚ
  calories : ℚ
  fitnessScore : ℚ
  intensityFactor : ℚ
  variabilityIndex : ℚ
  aerobicEfficiency : ℚ
  movementRatio : ℚ
  vam : ℚ
  trainingEffect : ℚ
deriving DecidableEq

/-- Structure `RunData` from `types.ts`, restricted to the fields the engine
computes with (the string `id`/`name` display metadata is omitted). -/
structure RunData where
  startTime : ℚ
  points : List TrackPoint
  laps : List Lap
  summary : Summary
deriving DecidableEq

/-- Enumeration `HRZoneMethod` from `types.ts`. -/
inductive HRZoneMethod where
  | MAX_HR
  | KARVONEN
deriving DecidableEq

/-- The athlete settings consumed by the zone model (`UserSettings`
restricted to the fields the engine reads). -/
structure UserSettings where
  maxHR : ℚ
  restingHR : ℚ
  method : HRZoneMethod
deriving DecidableEq

/-- One zone boundary record returned by `calculateZones`. -/
structure Zone where
  label : String
  min : ℚ
  max : ℚ
deriving DecidableEq

instance : Inhabited Zone := ⟨{ label := "", min := 0, max := 0 }⟩

/-- Structure `HRZoneDistribution` from `types.ts`. -/
structure HRZoneDistribution where
  zone : ℕ
  label : String
  min : ℚ
  max : ℚ
  seconds : ℚ
  percentage : ℚ
deriving DecidableEq

instance : Inhabited HRZoneDistribution :=
  ⟨{ zone := 0, label := "", min := 0, max := 0, seconds := 0, percentage := 0 }⟩

/-- Function `calculateZones` from the analytics module: five zone boundary
records, `Math.round`ed Karvonen (heart-rate-reserve) or
percent-of-max breakpoints at 0.50/0.60/0.70/0.80/0.90, with the top of
zone 5 set to `maxHR` itself. -/
def calculateZones (settings : UserSettings) : List Zone :=
  let maxHR := settings.maxHR
  let restingHR := settings.restingHR
  let hrReserve := maxHR - restingHR
  match settings.method with
  | HRZoneMethod.KARVONEN =>
    [ { label := "Z1 Recovery", min := (jsRound (restingHR + hrReserve * 0.50) : ℚ), max := (jsRound (restingHR + hrReserve * 0.60) : ℚ) },
      { label := "Z2 Aerobic", min := (jsRound (restingHR + hrReserve * 0.60) : ℚ), max := (jsRound (restingHR + hrReserve * 0.70) : ℚ) },
      { label := "Z3 Tempo", min := (jsRound (restingHR + hrReserve * 0.70) : ℚ), max := (jsRound (restingHR + hrReserve * 0.80) : ℚ) },
      { label := "Z4 Threshold", min := (jsRound (restingHR + hrReserve * 0.80) : ℚ), max := (jsRound (restingHR + hrReserve * 0.90) : ℚ) },
      { label := "Z5 Anaerobic", min := (jsRound (restingHR + hrReserve * 0.90) : ℚ), max := maxHR } ]
  | HRZoneMethod.MAX_HR =>
    [ { label := "Z1 Recovery", min := (jsRound (maxHR * 0.50) : ℚ), max := (jsRound (maxHR * 0.60) : ℚ) },
      { label := "Z2 Aerobic", min := (jsRound (maxHR * 0.60) : ℚ), max := (jsRound (maxHR * 0.70) : ℚ) },
      { label := "Z3 Tempo", min := (jsRound (maxHR * 0.70) : ℚ), max := (jsRound (maxHR * 0.80) : ℚ) },
      { label := "Z4 Threshold", min := (jsRound (maxHR * 0.80) : ℚ), max := (jsRound (maxHR * 0.90) : ℚ) },
      { label := "Z5 Anaerobic", min := (jsRound (maxHR * 0.90) : ℚ), max := maxHR } ]

/-- The initial distribution built by `getZoneDistribution` before its
loop: `zones.map((z, i) => ({zone: i + 1, ..., seconds: 0, percentage: 0}))`. -/
def initDist (settings : UserSettings) : List HRZoneDistribution :=
  (calculateZones settings).enum.map (fun iz =>
    { zone := iz.1 + 1, label := iz.2.label, min := iz.2.min, max := iz.2.max,
      seconds := 0, percentage := 0 })

/-- The zone-membership test of the classification loop:
`avgHr >= d.min && avgHr < d.max + 1`. -/
def zoneMatch (avgHr : ℚ) (d : HRZoneDistribution) : Bool :=
  decide (d.min ≤ avgHr) && decide (avgHr < d.max + 1)

/-- JS `Array.prototype.findIndex` over the distribution (`none` models
the JS result `-1`). -/
def findZoneIdx (avgHr : ℚ) : List HRZoneDistribution → Option ℕ
  | [] => none
  | d :: ds => if zoneMatch avgHr d then some 0 else (findZoneIdx avgHr ds).map (· + 1)

/-- The index credited by the classification loop: the first zone whose
`[min, max + 1)` interval contains the average HR, else — when the
average HR is at or above `maxHR` — the last zone (`distribution.length - 1`),
else no credit. -/
def zoneIndexOf (dist : List HRZoneDistribution) (maxHR avgHr : ℚ) : Option ℕ :=
  match findZoneIdx avgHr dist with
  | some idx => some idx
  | none => if maxHR ≤ avgHr then some (dist.length - 1) else none

/-- Update `distribution[idx].seconds += duration` (in-bounds list update). -/
def addSeconds : List HRZoneDistribution → ℕ → ℚ → List HRZoneDistribution
  | [], _, _ => []
  | d :: ds, 0, dur => { d with seconds := d.seconds + dur } :: ds
  | d :: ds, n + 1, dur => d :: addSeconds ds n dur

/-- The average HR of a consecutive sample pair: `(p1.hr + p2.hr) / 2`. -/
def pairAvgHr (p1 p2 : TrackPoint) : ℚ := (p1.hr.getD 0 + p2.hr.getD 0) / 2

/-- The time delta of a consecutive sample pair, in seconds. -/
def pairDuration (p1 p2 : TrackPoint) : ℚ := (p2.time - p1.time) / 1000

/-- One iteration of the `getZoneDistribution` loop, acting on the
state `(distribution, totalValidSeconds)`. -/
def zoneStep (maxHR : ℚ) (st : List HRZoneDistribution × ℚ)
    (pq : TrackPoint × TrackPoint) : List HRZoneDistribution × ℚ :=
  if truthy pq.1.hr && truthy pq.2.hr then
    let avgHr := pairAvgHr pq.1 pq.2
    let duration := pairDuration pq.1 pq.2
    if decide (0 < duration) && decide (duration < 30) then
      let newTotal := st.2 + duration
      match zoneIndexOf st.1 maxHR avgHr with
      | some idx => (addSeconds st.1 idx duration, newTotal)
      | none => (st.1, newTotal)
    else st
  else st

/-- Function `getZoneDistribution` from the analytics module: classify each
consecutive pair carrying HR with a time delta in `(0, 30)` seconds,
then turn accumulated seconds into percentages of the total counted
seconds (all percentages `0` when that total is not positive). -/
def getZoneDistribution (run : RunData) (settings : UserSettings) : List HRZoneDistribution :=
  let r := (consecutivePairs run.points).foldl (zoneStep settings.maxHR) (initDist settings, 0)
  r.1.map (fun d =>
    { d with percentage := if 0 < r.2 then d.seconds / r.2 * 100 else 0 })

/-- The running total `totalValidSeconds` of the classification loop. -/
def totalValidSeconds (run : RunData) (settings : UserSettings) : ℚ :=
  ((consecutivePairs run.points).foldl (zoneStep settings.maxHR) (initDist settings, 0)).2

/-- Function `calculateTrainingEffect` from the analytics module: a weighted
load score from the time in zones 3–5, mapped piecewise onto a 1.0–5.0
scale, rounded to one decimal and capped at 5.0. -/
def calculateTrainingEffect (run : RunData) (settings : UserSettings) : ℚ :=
  let dist := getZoneDistribution run settings
  let z3 := (dist.getD 2 default).seconds
  let z4 := (dist.getD 3 default).seconds
  let z5 := (dist.getD 4 default).seconds
  let score := (z3 * 0.5 + z4 * 1.5 + z5 * 3.0) / 60
  let effect : ℚ :=
    if score < 10 then 1.0 + score / 10
    else if score < 30 then 2.0 + (score - 10) / 20
    else if score < 60 then 3.0 + (score - 30) / 30
    else if score < 120 then 4.0 + (score - 60) / 60
    else 5.0
  min 5.0 ((jsRound (effect * 10) : ℚ) / 10)

/-- The grade-adjustment curve of `calculateGAP`:
`1 + 3·grade + 10·grade²`. -/
def adjFactor (grade : ℚ) : ℚ := 1 + grade * 3 + grade * grade * 10

/-- Function `calculateGAP` from the analytics module.  The final division is a
`jsDiv` because its denominator (`adjFactor`) is not syntactically
guarded; the `grade` and `actualPace` divisions have a denominator the
`dist <= 0` guard has already proved non-zero. -/
def calculateGAP (p1 p2 : TrackPoint) : Option ℚ :=
  let dist := p2.distance.getD 0 - p1.distance.getD 0
  let elev := p2.altitude.getD 0 - p1.altitude.getD 0
  let time := (p2.time - p1.time) / 1000
  if dist ≤ 0 ∨ time ≤ 0 then some 0
  else
    let grade := elev / dist
    let actualPace := time / (dist / 1000)
    jsDiv actualPace (adjFactor grade)

/-- The accumulator of `getEfficiency`'s loop inside
`calculateDecoupling`. -/
structure EffAcc where
  hrSum : ℚ
  distSum : ℚ
  timeSum : ℚ
  count : ℕ
deriving DecidableEq

/-- One iteration of the `getEfficiency` loop: a pair whose current
sample has truthy heart rate and distance contributes the current HR,
the distance delta and the time delta. -/
def effStep (st : EffAcc) (pq : TrackPoint × TrackPoint) : EffAcc :=
  if truthy pq.2.hr && truthy pq.2.distance then
    { hrSum := st.hrSum + pq.2.hr.getD 0,
      distSum := st.distSum + (pq.2.distance.getD 0 - pq.1.distance.getD 0),
      timeSum := st.timeSum + (pq.2.time - pq.1.time) / 1000,
      count := st.count + 1 }
  else st

/-- The accumulated sums of `getEfficiency` over a sample slice. -/
def effAccOf (pts : List TrackPoint) : EffAcc :=
  (consecutivePairs pts).foldl effStep ⟨0, 0, 0, 0⟩

/-- Function `getEfficiency` inside `calculateDecoupling`: `some 0` when no pair
qualifies or the distance sum is zero, otherwise
`(1 / paceKmMin) / avgHr`, where a zero `paceKmMin` (or zero `avgHr`)
makes the JS value non-finite (`none`). -/
def getEfficiency (pts : List TrackPoint) : Option ℚ :=
  let st := effAccOf pts
  if st.count = 0 ∨ st.distSum = 0 then some 0
  else
    let avgHr := st.hrSum / (st.count : ℚ)
    let paceKmMin := (st.timeSum / 60) / (st.distSum / 1000)
    (jsDiv 1 paceKmMin).bind (fun invPace => jsDiv invPace avgHr)

/-- Function `calculateDecoupling` from the analytics module.  The result type
mirrors the JS `number | null`: the outer `none` is the JS `null`, and
`some none` is a non-finite JS number (the inner `none` coming from
`jsDiv`). -/
def calculateDecoupling (run : RunData) : Option (Option ℚ) :=
  if run.points.length < 100 then none
  else
    let midPointIdx := run.points.length / 2
    let eff1 := getEfficiency (run.points.take midPointIdx)
    let eff2 := getEfficiency (run.points.drop midPointIdx)
    if eff1 = some 0 ∨ eff2 = some 0 then none
    else some (eff1.bind fun e1 => eff2.bind fun e2 => (jsDiv (e1 - e2) e1).map (· * 100))

/-! ## Trace ingestion (`parseTCX` in `src/services/plans.ts`)

The DOM extraction of per-trackpoint fields (and the `NaN → undefined`
coercion of fields that fail numeric parsing) is the input-adapter
layer; the embedding receives the resulting sample list directly, so
the parser's `points` array is the input list itself.  The two
`new Date()` fallbacks used when the input is empty are modelled by a
single `now` parameter (the current clock value in milliseconds). -/

/-- The streaming accumulator of `parseTCX`'s single pass. -/
structure ParseAcc where
  totalAscent : ℚ
  totalDescent : ℚ
  lastAlt : Option ℚ
  maxHR : ℚ
  hrSum : ℚ
  hrCount : ℕ
  movingTime : ℚ
  maxPace : ℚ

/-- The initial accumulator of `parseTCX`. -/
def initAcc : ParseAcc :=
  { totalAscent := 0, totalDescent := 0, lastAlt := none, maxHR := 0,
    hrSum := 0, hrCount := 0, movingTime := 0, maxPace := 0 }

/-- The part of `parseTCX`'s pair block handling moving time and max
pace: with a time delta strictly inside `(0, 15)` seconds, the delta is
added to moving time when the average speed exceeds `0.5 m/s`, and the
implied pace replaces `maxPace` when it passes the `(120, 1200)` s/km
outlier filter and beats the fastest pace so far.  (For a zero distance
delta JS computes `currentPace = Infinity` while the rational model
gives `0`; both fall outside the `(120, 1200)` window, so the
behaviour is identical.) -/
def motionUpdate (pr p : TrackPoint) (acc : ParseAcc) : ParseAcc :=
  let timeDiff := (p.time - pr.time) / 1000
  let distDiff := p.distance.getD 0 - pr.distance.getD 0
  if 0 < timeDiff ∧ timeDiff < 15 then
    let acc1 := if 0.5 < distDiff / timeDiff then
      { acc with movingTime := acc.movingTime + timeDiff } else acc
    let currentPace := timeDiff / (distDiff / 1000)
    if 120 < currentPace ∧ currentPace < 1200 then
      if acc1.maxPace = 0 ∨ currentPace < acc1.maxPace then
        { acc1 with maxPace := currentPace }
      else acc1
    else acc1
  else acc

/-- The ascent/descent part of `parseTCX`'s pair block: when the
current sample has an altitude and a last known altitude exists, a
positive delta accrues to ascent and a negative one (in absolute
value) to descent. -/
def elevUpdate (p : TrackPoint) (acc : ParseAcc) : ParseAcc :=
  match p.altitude, acc.lastAlt with
  | some a, some la =>
    if 0 < a - la then { acc with totalAscent := acc.totalAscent + (a - la) }
    else if a - la < 0 then { acc with totalDescent := acc.totalDescent + (la - a) }
    else acc
  | _, _ => acc

/-- The per-sample carries of `parseTCX`: the last known altitude and
the heart-rate running max/sum/count (an HR that parsed — even `0` —
counts here, since the source tests `!isNaN(hr)`). -/
def carryUpdate (p : TrackPoint) (acc : ParseAcc) : ParseAcc :=
  let acc1 := match p.altitude with
    | some a => { acc with lastAlt := some a }
    | none => acc
  match p.hr with
  | some h => { acc1 with maxHR := max acc1.maxHR h, hrSum := acc1.hrSum + h,
                          hrCount := acc1.hrCount + 1 }
  | none => acc1

/-- One iteration of `parseTCX`'s loop: the pair block (skipped for the
first sample) followed by the unconditional carries. -/
def parseStep (prev : Option TrackPoint) (p : TrackPoint) (acc : ParseAcc) : ParseAcc :=
  carryUpdate p (match prev with
    | some pr => elevUpdate p (motionUpdate pr p acc)
    | none => acc)

/-- Pass of `parseTCX` over the sample list, carrying the previous
sample. -/
def accumulate (acc : ParseAcc) (prev : Option TrackPoint) : List TrackPoint → ParseAcc
  | [] => acc
  | p :: rest => accumulate (parseStep prev p acc) (some p) rest

/-- Function `parseTCX` from `src/services/plans.ts`, after the input adapter:
one accumulation pass, then the post-pass derived summary fields.
`avgPace`'s division is guarded only by `movingTime > 0` — the
numerator — so it is a `jsDiv` by `totalDistance / 1000`; every other
derived field checks its own denominator.  `intensityFactor`'s
`none` branch is the JS `300 / Infinity = 0`. -/
def parseTCX (pts : List TrackPoint) (now : ℚ) : RunData :=
  let acc := accumulate initAcc none pts
  let totalDistance := match pts.getLast? with
    | some p => p.distance.getD 0
    | none => 0
  let startTime := (pts.head?.map (·.time)).getD now
  let endTime := (pts.getLast?.map (·.time)).getD now
  let elapsedTime := (endTime - startTime) / 1000
  let avgHR : ℚ := if 0 < acc.hrCount then acc.hrSum / (acc.hrCount : ℚ) else 0
  let avgPace : Option ℚ :=
    if 0 < acc.movingTime then jsDiv acc.movingTime (totalDistance / 1000) else some 0
  let aerobicEfficiency := if 0 < avgHR then totalDistance / acc.hrSum * 100 else 0
  let movementRatio := if 0 < elapsedTime then acc.movingTime / elapsedTime * 100 else 0
  let vam := if 0 < acc.movingTime then acc.totalAscent / acc.movingTime * 3600 else 0
  let intensityFactor := match avgPace with
    | some p => if 0 < p then 300 / p else 0
    | none => 0
  { startTime := startTime
    points := pts
    laps := []
    summary :=
      { totalDistance := totalDistance
        elapsedTime := elapsedTime
        movingTime := acc.movingTime
        avgHR := (jsRound avgHR : ℚ)
        maxHR := acc.maxHR
        totalAscent := acc.totalAscent
        totalDescent := acc.totalDescent
        avgPace := avgPace
        maxPace := acc.maxPace
        calories := (jsRound (totalDistance / 1000 * 70) : ℚ)
        fitnessScore := (jsRound (avgHR * (acc.movingTime / 3600) / 10) : ℚ)
        intensityFactor := intensityFactor
        variabilityIndex := 1.05
        aerobicEfficiency := aerobicEfficiency
        movementRatio := movementRatio
        vam := vam
        trainingEffect := 0 } }

/-- A trace carrying only sample data, for feeding the zone model
directly (the summary is not read by the zone functions). -/
def mkRun (pts : List TrackPoint) : RunData :=
  { startTime := 0, points := pts, laps := [],
    summary :=
      { totalDistance := 0, elapsedTime := 0, movingTime := 0, avgHR := 0,
        maxHR := 0, totalAscent := 0, totalDescent := 0, avgPace := some 0,
        maxPace := 0, calories := 0, fitnessScore := 0, intensityFactor := 0,
        variabilityIndex := 1.05, aerobicEfficiency := 0, movementRatio := 0,
        vam := 0, trainingEffect := 0 } }

/-! ## Specification-side definitions

Per-pair readings of the loops, used to state the claims
extensionally. -/

/-- Specification-side: a consecutive pair is counted by the zone
classification exactly when both samples carry a truthy HR and the
time delta is strictly inside `(0, 30)` seconds. -/
def countedPair (pq : TrackPoint × TrackPoint) : Bool :=
  truthy pq.1.hr && truthy pq.2.hr &&
    (decide (0 < pairDuration pq.1 pq.2) && decide (pairDuration pq.1 pq.2 < 30))

/-- Specification-side: the seconds a single consecutive pair credits
to zone index `j` (w.r.t. the initial distribution `zones0`): its time
delta when the pair is counted and its average HR is assigned to `j`,
otherwise nothing. -/
def zoneContribution (zones0 : List HRZoneDistribution) (maxHR : ℚ) (j : ℕ)
    (pq : TrackPoint × TrackPoint) : ℚ :=
  if countedPair pq = true ∧ zoneIndexOf zones0 maxHR (pairAvgHr pq.1 pq.2) = some j
  then pairDuration pq.1 pq.2 else 0

/-- Specification-side: the seconds a single consecutive pair adds to
the running `totalValidSeconds`. -/
def countedDuration (pq : TrackPoint × TrackPoint) : ℚ :=
  if countedPair pq = true then pairDuration pq.1 pq.2 else 0

/-- Specification-side: the seconds a single consecutive pair adds to
some zone (any zone at all). -/
def assignedDuration (zones0 : List HRZoneDistribution) (maxHR : ℚ)
    (pq : TrackPoint × TrackPoint) : ℚ :=
  if countedPair pq = true ∧ (zoneIndexOf zones0 maxHR (pairAvgHr pq.1 pq.2)).isSome = true
  then pairDuration pq.1 pq.2 else 0

/-- Specification-side: the moving time one consecutive pair
contributes during ingestion — its time delta, when that delta is
strictly inside `(0, 15)` seconds and the average speed over the
interval exceeds `0.5 m/s`. -/
def movingContrib (p1 p2 : TrackPoint) : ℚ :=
  let timeDiff := (p2.time - p1.time) / 1000
  let distDiff := p2.distance.getD 0 - p1.distance.getD 0
  if 0 < timeDiff ∧ timeDiff < 15 ∧ 0.5 < distDiff / timeDiff then timeDiff else 0

/-- Specification-side: the training-effect mapping exactly as the
specification words it — load score `(z3·0.5 + z4·1.5 + z5·3.0)/60`,
the five-interval piecewise map onto 1.0–5.0, rounding to one decimal,
ceiling 5.0. -/
def trainingEffectSpec (z3 z4 z5 : ℚ) : ℚ :=
  let score := (z3 * 0.5 + z4 * 1.5 + z5 * 3.0) / 60
  let effect : ℚ :=
    if score < 10 then 1.0 + score / 10
    else if score < 30 then 2.0 + (score - 10) / 20
    else if score < 60 then 3.0 + (score - 30) / 30
    else if score < 120 then 4.0 + (score - 60) / 60
    else 5.0
  min 5.0 ((jsRound (effect * 10) : ℚ) / 10)

/-- The `(min, max)` boundary data of a distribution record — the only
fields the classification predicate reads. -/
def bnds (d : HRZoneDistribution) : ℚ × ℚ := (d.min, d.max)

/-- The athlete settings of the specification's worked scenarios:
`maxHR = 190`, `restingHR = 55`, Karvonen method. -/
def s190 : UserSettings :=
  { maxHR := 190, restingHR := 55, method := HRZoneMethod.KARVONEN }

/-! ## Concrete traces used as test inputs -/

/-- Three samples whose last cumulative distance is missing: one fast
pair (20 m in 10 s) accrues moving time, yet the trace's total distance
is `0`. -/
def c2pts : List TrackPoint :=
  [ { time := 0, distance := some 0 },
    { time := 10000, distance := some 20 },
    { time := 20000 } ]

/-- A pair of samples exactly 15 seconds apart moving at 2 m/s. -/
def c5pts : List TrackPoint :=
  [ { time := 0, distance := some 0 },
    { time := 15000, distance := some 30 } ]

/-- Three HR samples: the first pair's average HR (60) lies below zone
1, the second pair's (130) lies inside zone 1 of `s190`. -/
def c3pts : List TrackPoint :=
  [ { time := 0, hr := some 60 },
    { time := 10000, hr := some 130 },
    { time := 20000, hr := some 130 } ]

/-- A single 20-second pair at HR 155 (zone 3 of `s190`). -/
def c6pts : List TrackPoint :=
  [ { time := 0, hr := some 155 },
    { time := 20000, hr := some 155 } ]

/-- A run realizing the specification's training-effect scenario under
`s190`: 48 pairs of 25 s at HR 155 (zone 3, 1200 s), a 50-second data
gap, then 24 pairs of 25 s at HR 170 (zone 4, 600 s). -/
def c7pts : List TrackPoint :=
  ((List.range 49).map (fun i => { time := (i : ℚ) * 25000, hr := some 155 })) ++
  ((List.range 25).map (fun i => { time := 1250000 + (i : ℚ) * 25000, hr := some 170 }))

/-- 100 samples with HR and increasing distance but all carrying the
same timestamp: both halves classify non-zero distance and HR, yet the
time sums are zero. -/
def c8aPts : List TrackPoint :=
  (List.range 100).map (fun i =>
    { time := 0, distance := some ((i : ℚ) + 1), hr := some 100 })

/-- 100 well-formed samples: 1 s apart, 1 m apart, HR 100. -/
def c8bPts : List TrackPoint :=
  (List.range 100).map (fun i =>
    { time := (i : ℚ) * 1000, distance := some ((i : ℚ) + 1), hr := some 100 })


/-! ## List-level helper lemmas -/

theorem consecutivePairs_nil : consecutivePairs ([] : List α) = [] := rfl

theorem consecutivePairs_single (a : α) : consecutivePairs [a] = [] := rfl

theorem consecutivePairs_cons_cons (a b : α) (t : List α) :
    consecutivePairs (a :: b :: t) = (a, b) :: consecutivePairs (b :: t) := rfl

theorem addSeconds_length (l : List HRZoneDistribution) (i : ℕ) (dur : ℚ) :
    (addSeconds l i dur).length = l.length := by
  induction l generalizing i with
  | nil => rfl
  | cons d ds ih =>
    cases i with
    | zero => rfl
    | succ n => simp [addSeconds, ih]

theorem addSeconds_map_bnds (l : List HRZoneDistribution) (i : ℕ) (dur : ℚ) :
    (addSeconds l i dur).map bnds = l.map bnds := by
  induction l generalizing i with
  | nil => rfl
  | cons d ds ih =>
    cases i with
    | zero => simp [addSeconds, bnds]
    | succ n => simp [addSeconds, ih]

theorem addSeconds_getD_seconds (l : List HRZoneDistribution) (i j : ℕ) (dur : ℚ)
    (hj : j < l.length) :
    ((addSeconds l i dur).getD j default).seconds
      = (l.getD j default).seconds + (if i = j then dur else 0) := by
  induction l generalizing i j with
  | nil => simp at hj
  | cons d ds ih =>
    cases i with
    | zero =>
      cases j with
      | zero => simp [addSeconds]
      | succ m => simp [addSeconds]
    | succ n =>
      cases j with
      | zero => simp [addSeconds]
      | succ m =>
        have hm : m < ds.length := by simpa using hj
        simp only [addSeconds, List.getD_cons_succ, ih n m hm]
        congr 1
        simp [Nat.succ_inj]

theorem addSeconds_sum_seconds (l : List HRZoneDistribution) (i : ℕ) (dur : ℚ)
    (hi : i < l.length) :
    ((addSeconds l i dur).map (fun d => d.seconds)).sum
      = (l.map (fun d => d.seconds)).sum + dur := by
  induction l generalizing i with
  | nil => simp at hi
  | cons d ds ih =>
    cases i with
    | zero => simp [addSeconds]; ring
    | succ n =>
      have hn : n < ds.length := by simpa using hi
      simp [addSeconds, ih n hn]; ring

theorem zoneMatch_of_bnds_eq {d₁ d₂ : HRZoneDistribution} (h : bnds d₁ = bnds d₂)
    (a : ℚ) : zoneMatch a d₁ = zoneMatch a d₂ := by
  have h1 : d₁.min = d₂.min := congrArg Prod.fst h
  have h2 : d₁.max = d₂.max := congrArg Prod.snd h
  simp [zoneMatch, h1, h2]

theorem findZoneIdx_congr {l₁ l₂ : List HRZoneDistribution}
    (h : l₁.map bnds = l₂.map bnds) (a : ℚ) : findZoneIdx a l₁ = findZoneIdx a l₂ := by
  induction l₁ generalizing l₂ with
  | nil =>
    cases l₂ with
    | nil => rfl
    | cons d ds => simp at h
  | cons d ds ih =>
    cases l₂ with
    | nil => simp at h
    | cons e es =>
      simp only [List.map_cons, List.cons.injEq] at h
      rw [findZoneIdx, findZoneIdx, zoneMatch_of_bnds_eq h.1 a, ih h.2]

theorem findZoneIdx_some {a : ℚ} {l : List HRZoneDistribution} {i : ℕ}
    (h : findZoneIdx a l = some i) :
    i < l.length ∧ zoneMatch a (l.getD i default) = true ∧
      ∀ k, k < i → zoneMatch a (l.getD k default) = false := by
  induction l generalizing i with
  | nil => simp [findZoneIdx] at h
  | cons d ds ih =>
    rw [findZoneIdx] at h
    by_cases hm : zoneMatch a d = true
    · rw [if_pos hm] at h
      cases h
      refine ⟨by simp, by simpa using hm, ?_⟩
      intro k hk
      exact absurd hk (Nat.not_lt_zero k)
    · rw [if_neg hm] at h
      rcases Option.map_eq_some'.mp h with ⟨i', hi', rfl⟩
      rcases ih hi' with ⟨h1, h2, h3⟩
      refine ⟨by simpa using h1, by simpa using h2, ?_⟩
      intro k hk
      cases k with
      | zero => simpa using Bool.eq_false_iff.mpr hm
      | succ m =>
        have : m < i' := by omega
        simpa using h3 m this

theorem findZoneIdx_none {a : ℚ} {l : List HRZoneDistribution}
    (h : findZoneIdx a l = none) :
    ∀ k, k < l.length → zoneMatch a (l.getD k default) = false := by
  induction l with
  | nil => intro k hk; simp at hk
  | cons d ds ih =>
    rw [findZoneIdx] at h
    by_cases hm : zoneMatch a d = true
    · rw [if_pos hm] at h; cases h
    · rw [if_neg hm] at h
      intro k hk
      cases k with
      | zero => simpa using Bool.eq_false_iff.mpr hm
      | succ m =>
        have hds : findZoneIdx a ds = none := by
          cases hds : findZoneIdx a ds with
          | none => rfl
          | some v => rw [hds] at h; simp at h
        have : m < ds.length := by simpa using hk
        simpa using ih hds m this

theorem findZoneIdx_first {a : ℚ} {l : List HRZoneDistribution} {j : ℕ}
    (hj : j < l.length) (hm : zoneMatch a (l.getD j default) = true) :
    ∃ k, k ≤ j ∧ findZoneIdx a l = some k := by
  cases h : findZoneIdx a l with
  | none =>
    rw [findZoneIdx_none h j hj] at hm
    cases hm
  | some k =>
    refine ⟨k, ?_, rfl⟩
    by_contra hlt
    have : j < k := by omega
    have := (findZoneIdx_some h).2.2 j this
    rw [hm] at this
    cases this

theorem zoneIndexOf_congr {l₁ l₂ : List HRZoneDistribution}
    (h : l₁.map bnds = l₂.map bnds) (m a : ℚ) :
    zoneIndexOf l₁ m a = zoneIndexOf l₂ m a := by
  have hlen : l₁.length = l₂.length := by
    have := congrArg List.length h
    simpa using this
  rw [zoneIndexOf, zoneIndexOf, findZoneIdx_congr h a, hlen]

theorem zoneIndexOf_lt_length {l : List HRZoneDistribution} {m a : ℚ} {i : ℕ}
    (hl : 0 < l.length) (h : zoneIndexOf l m a = some i) : i < l.length := by
  rw [zoneIndexOf] at h
  cases hf : findZoneIdx a l with
  | some v =>
    rw [hf] at h
    cases h
    exact (findZoneIdx_some hf).1
  | none =>
    rw [hf] at h
    by_cases hm : m ≤ a
    · rw [if_pos hm] at h
      cases h
      omega
    · rw [if_neg hm] at h; cases h

/-! ## Characterizing the classification loop -/

theorem zoneStep_eq (m : ℚ) (st : List HRZoneDistribution × ℚ)
    (pq : TrackPoint × TrackPoint) :
    zoneStep m st pq =
      if countedPair pq = true then
        ((match zoneIndexOf st.1 m (pairAvgHr pq.1 pq.2) with
          | some idx => addSeconds st.1 idx (pairDuration pq.1 pq.2)
          | none => st.1), st.2 + pairDuration pq.1 pq.2)
      else st := by
  cases h1 : (truthy pq.1.hr && truthy pq.2.hr) <;>
    cases h2 : (decide (0 < pairDuration pq.1 pq.2) &&
        decide (pairDuration pq.1 pq.2 < 30)) <;>
      simp [zoneStep, countedPair, h1, h2]
  cases zoneIndexOf st.1 m (pairAvgHr pq.1 pq.2) <;> rfl

theorem zoneContribution_congr {l₁ l₂ : List HRZoneDistribution}
    (h : l₁.map bnds = l₂.map bnds) (m : ℚ) (j : ℕ) (pq : TrackPoint × TrackPoint) :
    zoneContribution l₁ m j pq = zoneContribution l₂ m j pq := by
  rw [zoneContribution, zoneContribution, zoneIndexOf_congr h]

theorem assignedDuration_congr {l₁ l₂ : List HRZoneDistribution}
    (h : l₁.map bnds = l₂.map bnds) (m : ℚ) (pq : TrackPoint × TrackPoint) :
    assignedDuration l₁ m pq = assignedDuration l₂ m pq := by
  rw [assignedDuration, assignedDuration, zoneIndexOf_congr h]

theorem zoneStep_map_bnds (m : ℚ) (st : List HRZoneDistribution × ℚ)
    (pq : TrackPoint × TrackPoint) :
    (zoneStep m st pq).1.map bnds = st.1.map bnds := by
  rw [zoneStep_eq]
  by_cases hc : countedPair pq = true
  · rw [if_pos hc]
    cases hz : zoneIndexOf st.1 m (pairAvgHr pq.1 pq.2) with
    | some idx => simp [addSeconds_map_bnds]
    | none => simp
  · rw [if_neg hc]

theorem zoneStep_snd (m : ℚ) (st : List HRZoneDistribution × ℚ)
    (pq : TrackPoint × TrackPoint) :
    (zoneStep m st pq).2 = st.2 + countedDuration pq := by
  rw [zoneStep_eq, countedDuration]
  by_cases hc : countedPair pq = true
  · rw [if_pos hc, if_pos hc]
  · rw [if_neg hc, if_neg hc, add_zero]

theorem zoneStep_sum_seconds (m : ℚ) (st : List HRZoneDistribution × ℚ)
    (pq : TrackPoint × TrackPoint) (hl : 0 < st.1.length) :
    ((zoneStep m st pq).1.map (fun d => d.seconds)).sum
      = (st.1.map (fun d => d.seconds)).sum + assignedDuration st.1 m pq := by
  rw [zoneStep_eq, assignedDuration]
  by_cases hc : countedPair pq = true
  · simp only [if_pos hc, true_and]
    cases hz : zoneIndexOf st.1 m (pairAvgHr pq.1 pq.2) with
    | some idx =>
      have hi := zoneIndexOf_lt_length hl hz
      simp [addSeconds_sum_seconds _ _ _ hi, hc]
    | none => simp
  · simp [hc]

theorem zoneStep_getD_seconds (m : ℚ) (st : List HRZoneDistribution × ℚ)
    (pq : TrackPoint × TrackPoint) (j : ℕ) (hj : j < st.1.length) :
    ((zoneStep m st pq).1.getD j default).seconds
      = (st.1.getD j default).seconds + zoneContribution st.1 m j pq := by
  rw [zoneStep_eq, zoneContribution]
  by_cases hc : countedPair pq = true
  · simp only [if_pos hc, true_and]
    cases hz : zoneIndexOf st.1 m (pairAvgHr pq.1 pq.2) with
    | some idx =>
      rw [addSeconds_getD_seconds _ _ _ _ hj]
      simp [hc]
    | none => simp
  · simp [hc]

theorem zoneFold_main (m : ℚ) (ps : List (TrackPoint × TrackPoint)) :
    ∀ st : List HRZoneDistribution × ℚ, 0 < st.1.length →
      ((ps.foldl (zoneStep m) st).1.map bnds = st.1.map bnds) ∧
      ((ps.foldl (zoneStep m) st).2 = st.2 + (ps.map countedDuration).sum) ∧
      (((ps.foldl (zoneStep m) st).1.map (fun d => d.seconds)).sum
        = (st.1.map (fun d => d.seconds)).sum + (ps.map (assignedDuration st.1 m)).sum) ∧
      (∀ j, j < st.1.length →
        ((ps.foldl (zoneStep m) st).1.getD j default).seconds
          = (st.1.getD j default).seconds + (ps.map (zoneContribution st.1 m j)).sum) := by
  induction ps with
  | nil =>
    intro st hl
    refine ⟨rfl, by simp, by simp, fun j hj => by simp⟩
  | cons pq rest ih =>
    intro st hl
    rw [List.foldl_cons]
    have hbnds : (zoneStep m st pq).1.map bnds = st.1.map bnds := zoneStep_map_bnds m st pq
    have hlen : (zoneStep m st pq).1.length = st.1.length := by
      have := congrArg List.length hbnds
      simpa using this
    have hl' : 0 < (zoneStep m st pq).1.length := by omega
    obtain ⟨ib, it, isum, ig⟩ := ih (zoneStep m st pq) hl'
    refine ⟨by rw [ib, hbnds], ?_, ?_, ?_⟩
    · rw [it, zoneStep_snd]
      simp [add_assoc]
    · rw [isum, zoneStep_sum_seconds m st pq hl]
      have hc : rest.map (assignedDuration (zoneStep m st pq).1 m)
          = rest.map (assignedDuration st.1 m) :=
        List.map_congr_left (fun x _ => assignedDuration_congr hbnds m x)
      rw [hc]
      simp [add_assoc]
    · intro j hj
      have hj' : j < (zoneStep m st pq).1.length := by omega
      rw [ig j hj', zoneStep_getD_seconds m st pq j hj]
      have hc : rest.map (zoneContribution (zoneStep m st pq).1 m j)
          = rest.map (zoneContribution st.1 m j) :=
        List.map_congr_left (fun x _ => zoneContribution_congr hbnds m j x)
      rw [hc]
      simp [add_assoc]

/-! ## From the loop characterization to `getZoneDistribution` -/

theorem initDist_length (s : UserSettings) : (initDist s).length = 5 := by
  rcases s with ⟨mh, rh, me⟩
  cases me <;> rfl

theorem initDist_getD_seconds (s : UserSettings) (j : ℕ) :
    ((initDist s).getD j default).seconds = 0 := by
  rcases s with ⟨mh, rh, me⟩
  cases me <;>
    match j with
    | 0 => rfl
    | 1 => rfl
    | 2 => rfl
    | 3 => rfl
    | 4 => rfl
    | n + 5 => rfl

theorem initDist_sum_seconds (s : UserSettings) :
    ((initDist s).map (fun d => d.seconds)).sum = 0 := by
  rcases s with ⟨mh, rh, me⟩
  cases me <;> simp [initDist, calculateZones, List.enum, List.enumFrom]

theorem getD_map_percentage_seconds (l : List HRZoneDistribution)
    (P : HRZoneDistribution → ℚ) (j : ℕ) :
    ((l.map (fun d : HRZoneDistribution => { d with percentage := P d })).getD j
        default).seconds
      = (l.getD j default).seconds := by
  induction l generalizing j with
  | nil => rfl
  | cons d ds ih =>
    cases j with
    | zero => rfl
    | succ n => simpa using ih n

theorem getD_map_percentage_value (l : List HRZoneDistribution)
    (P : HRZoneDistribution → ℚ) (j : ℕ) (hj : j < l.length) :
    ((l.map (fun d : HRZoneDistribution => { d with percentage := P d })).getD j
        default).percentage
      = P (l.getD j default) := by
  induction l generalizing j with
  | nil => simp at hj
  | cons d ds ih =>
    cases j with
    | zero => rfl
    | succ n =>
      have hn : n < ds.length := by simpa using hj
      simpa using ih n hn

theorem sum_map_div_mul (l : List ℚ) (t : ℚ) :
    (l.map (fun x => x / t * 100)).sum = l.sum / t * 100 := by
  induction l with
  | nil => simp
  | cons x xs ih =>
    simp only [List.map_cons, List.sum_cons, ih]
    ring

/-- The seconds field of the returned distribution is exactly the sum
of the per-pair contributions (w.r.t. the initial distribution). -/
theorem getZoneDistribution_seconds (run : RunData) (s : UserSettings) (j : ℕ)
    (hj : j < 5) :
    ((getZoneDistribution run s).getD j default).seconds
      = ((consecutivePairs run.points).map (zoneContribution (initDist s) s.maxHR j)).sum := by
  have hl : 0 < (initDist s).length := by rw [initDist_length]; omega
  have hj' : j < (initDist s).length := by rw [initDist_length]; omega
  have h := (zoneFold_main s.maxHR (consecutivePairs run.points) (initDist s, 0) hl).2.2.2 j hj'
  simp only [getZoneDistribution, getD_map_percentage_seconds]
  rw [h, initDist_getD_seconds, zero_add]

theorem getZoneDistribution_sum_seconds (run : RunData) (s : UserSettings) :
    ((getZoneDistribution run s).map (fun d => d.seconds)).sum
      = ((consecutivePairs run.points).map (assignedDuration (initDist s) s.maxHR)).sum := by
  have hl : 0 < (initDist s).length := by rw [initDist_length]; omega
  have h := (zoneFold_main s.maxHR (consecutivePairs run.points) (initDist s, 0) hl).2.2.1
  simp only [getZoneDistribution]
  have hmm : ∀ (l : List HRZoneDistribution) (P : HRZoneDistribution → ℚ),
      ((l.map (fun d => { d with percentage := P d })).map (fun d => d.seconds)).sum
        = (l.map (fun d => d.seconds)).sum := by
    intro l P
    rw [List.map_map]
    rfl
  rw [hmm, h, initDist_sum_seconds, zero_add]

theorem totalValidSeconds_eq (run : RunData) (s : UserSettings) :
    totalValidSeconds run s = ((consecutivePairs run.points).map countedDuration).sum := by
  have hl : 0 < (initDist s).length := by rw [initDist_length]; omega
  have h := (zoneFold_main s.maxHR (consecutivePairs run.points) (initDist s, 0) hl).2.1
  simpa [totalValidSeconds] using h

theorem getZoneDistribution_length (run : RunData) (s : UserSettings) :
    (getZoneDistribution run s).length = 5 := by
  have hl : 0 < (initDist s).length := by rw [initDist_length]; omega
  have h := (zoneFold_main s.maxHR (consecutivePairs run.points) (initDist s, 0) hl).1
  have := congrArg List.length h
  simp only [List.length_map] at this
  simp only [getZoneDistribution, List.length_map]
  rw [this, initDist_length]

theorem getZoneDistribution_map_bnds (run : RunData) (s : UserSettings) :
    (getZoneDistribution run s).map bnds = (initDist s).map bnds := by
  have hl : 0 < (initDist s).length := by rw [initDist_length]; omega
  have h := (zoneFold_main s.maxHR (consecutivePairs run.points) (initDist s, 0) hl).1
  simp only [getZoneDistribution]
  rw [List.map_map]
  have : (bnds ∘ fun d => { d with percentage :=
      if 0 < ((consecutivePairs run.points).foldl (zoneStep s.maxHR) (initDist s, 0)).2 then
        d.seconds / ((consecutivePairs run.points).foldl (zoneStep s.maxHR) (initDist s, 0)).2 * 100
      else 0 }) = bnds := by
    funext d
    rfl
  rw [this, h]

theorem getZoneDistribution_percentage (run : RunData) (s : UserSettings) (j : ℕ)
    (hj : j < 5) :
    ((getZoneDistribution run s).getD j default).percentage
      = (if 0 < totalValidSeconds run s then
          (((consecutivePairs run.points).foldl (zoneStep s.maxHR) (initDist s, 0)).1.getD j
              default).seconds / totalValidSeconds run s * 100
        else 0) := by
  have hl : 0 < (initDist s).length := by rw [initDist_length]; omega
  have hlen : (((consecutivePairs run.points).foldl (zoneStep s.maxHR)
      (initDist s, 0)).1).length = 5 := by
    have h := (zoneFold_main s.maxHR (consecutivePairs run.points) (initDist s, 0) hl).1
    have := congrArg List.length h
    simp only [List.length_map] at this
    rw [this, initDist_length]
  have hj' : j < (((consecutivePairs run.points).foldl (zoneStep s.maxHR)
      (initDist s, 0)).1).length := by omega
  simp only [getZoneDistribution, totalValidSeconds]
  rw [getD_map_percentage_value _ _ _ hj']

/-! ## Characterizing moving-time accumulation in `parseTCX` -/

theorem motionUpdate_movingTime (pr p : TrackPoint) (acc : ParseAcc) :
    (motionUpdate pr p acc).movingTime = acc.movingTime + movingContrib pr p := by
  rw [motionUpdate, movingContrib]
  by_cases h1 : 0 < (p.time - pr.time) / 1000 ∧ (p.time - pr.time) / 1000 < 15
  · rw [if_pos h1]
    by_cases h2 : (0.5 : ℚ) <
        (p.distance.getD 0 - pr.distance.getD 0) / ((p.time - pr.time) / 1000)
    · simp only [if_pos h2, if_pos (by exact ⟨h1.1, h1.2, h2⟩ :
        0 < (p.time - pr.time) / 1000 ∧ (p.time - pr.time) / 1000 < 15 ∧
          (0.5 : ℚ) < (p.distance.getD 0 - pr.distance.getD 0) / ((p.time - pr.time) / 1000))]
      split_ifs <;> rfl
    · simp only [if_neg h2, if_neg (fun h : _ ∧ _ ∧ _ => h2 h.2.2), add_zero]
      split_ifs <;> rfl
  · rw [if_neg h1, if_neg (fun h : _ ∧ _ ∧ _ => h1 ⟨h.1, h.2.1⟩), add_zero]

theorem elevUpdate_movingTime (p : TrackPoint) (acc : ParseAcc) :
    (elevUpdate p acc).movingTime = acc.movingTime := by
  rw [elevUpdate]
  cases p.altitude with
  | none => rfl
  | some a =>
    cases acc.lastAlt with
    | none => rfl
    | some la =>
      dsimp only
      split_ifs <;> rfl

theorem carryUpdate_movingTime (p : TrackPoint) (acc : ParseAcc) :
    (carryUpdate p acc).movingTime = acc.movingTime := by
  rw [carryUpdate]
  cases p.altitude <;> cases p.hr <;> rfl

theorem parseStep_movingTime (prev : Option TrackPoint) (p : TrackPoint) (acc : ParseAcc) :
    (parseStep prev p acc).movingTime
      = acc.movingTime + (match prev with
          | some pr => movingContrib pr p
          | none => 0) := by
  cases prev with
  | none => rw [parseStep, carryUpdate_movingTime, add_zero]
  | some pr =>
    rw [parseStep, carryUpdate_movingTime, elevUpdate_movingTime, motionUpdate_movingTime]

theorem accumulate_movingTime (l : List TrackPoint) :
    ∀ (acc : ParseAcc) (prev : Option TrackPoint),
      (accumulate acc prev l).movingTime
        = acc.movingTime + ((consecutivePairs (prev.toList ++ l)).map
            (fun pq => movingContrib pq.1 pq.2)).sum := by
  induction l with
  | nil =>
    intro acc prev
    cases prev <;> simp [accumulate, consecutivePairs]
  | cons p rest ih =>
    intro acc prev
    rw [accumulate, ih (parseStep prev p acc) (some p), parseStep_movingTime]
    cases prev with
    | none =>
      simp only [Option.toList, List.singleton_append, List.nil_append, add_zero]
    | some q =>
      simp only [Option.toList, List.singleton_append,
        consecutivePairs_cons_cons, List.map_cons, List.sum_cons]
      ring

/-! ## Rounding and zone-boundary helper lemmas -/

theorem jsRound_mono {a b : ℚ} (h : a ≤ b) : (jsRound a : ℚ) ≤ (jsRound b : ℚ) := by
  have : jsRound a ≤ jsRound b := Int.floor_le_floor (by linarith)
  exact_mod_cast this

theorem jsRound_le_intCast {q : ℚ} {z : ℤ} (h : q + 1/2 < (z : ℚ) + 1) :
    (jsRound q : ℚ) ≤ (z : ℚ) := by
  have hz : jsRound q ≤ z := by
    rw [jsRound]
    by_contra hc
    push_neg at hc
    have h1 : z + 1 ≤ ⌊q + 1/2⌋ := by omega
    have h2 : ((z + 1 : ℤ) : ℚ) ≤ q + 1/2 := Int.le_floor.mp h1
    push_cast at h2
    linarith
  exact_mod_cast hz

theorem zoneMatch_iff (a : ℚ) (d : HRZoneDistribution) :
    zoneMatch a d = true ↔ d.min ≤ a ∧ a < d.max + 1 := by
  simp [zoneMatch]

theorem initDist_s190 :
    initDist s190 =
      [ { zone := 1, label := "Z1 Recovery", min := 123, max := 136, seconds := 0, percentage := 0 },
        { zone := 2, label := "Z2 Aerobic", min := 136, max := 150, seconds := 0, percentage := 0 },
        { zone := 3, label := "Z3 Tempo", min := 150, max := 163, seconds := 0, percentage := 0 },
        { zone := 4, label := "Z4 Threshold", min := 163, max := 177, seconds := 0, percentage := 0 },
        { zone := 5, label := "Z5 Anaerobic", min := 177, max := 190, seconds := 0, percentage := 0 } ] := by
  norm_num [initDist, calculateZones, s190, jsRound, List.enum, List.enumFrom]

theorem initDist_getD_min (s : UserSettings) (j : ℕ) (hj : j < 5) :
    ((initDist s).getD j default).min = ((calculateZones s).getD j default).min := by
  rcases s with ⟨mh, rh, me⟩
  cases me <;> interval_cases j <;> rfl

theorem initDist_getD_max (s : UserSettings) (j : ℕ) (hj : j < 5) :
    ((initDist s).getD j default).max = ((calculateZones s).getD j default).max := by
  rcases s with ⟨mh, rh, me⟩
  cases me <;> interval_cases j <;> rfl

theorem calculateZones_karvonen (mh rh : ℚ) :
    calculateZones { maxHR := mh, restingHR := rh, method := HRZoneMethod.KARVONEN } =
      [ { label := "Z1 Recovery", min := (jsRound (rh + (mh - rh) * 0.50) : ℚ), max := (jsRound (rh + (mh - rh) * 0.60) : ℚ) },
        { label := "Z2 Aerobic", min := (jsRound (rh + (mh - rh) * 0.60) : ℚ), max := (jsRound (rh + (mh - rh) * 0.70) : ℚ) },
        { label := "Z3 Tempo", min := (jsRound (rh + (mh - rh) * 0.70) : ℚ), max := (jsRound (rh + (mh - rh) * 0.80) : ℚ) },
        { label := "Z4 Threshold", min := (jsRound (rh + (mh - rh) * 0.80) : ℚ), max := (jsRound (rh + (mh - rh) * 0.90) : ℚ) },
        { label := "Z5 Anaerobic", min := (jsRound (rh + (mh - rh) * 0.90) : ℚ), max := mh } ] := rfl

theorem calculateZones_maxhr (mh rh : ℚ) :
    calculateZones { maxHR := mh, restingHR := rh, method := HRZoneMethod.MAX_HR } =
      [ { label := "Z1 Recovery", min := (jsRound (mh * 0.50) : ℚ), max := (jsRound (mh * 0.60) : ℚ) },
        { label := "Z2 Aerobic", min := (jsRound (mh * 0.60) : ℚ), max := (jsRound (mh * 0.70) : ℚ) },
        { label := "Z3 Tempo", min := (jsRound (mh * 0.70) : ℚ), max := (jsRound (mh * 0.80) : ℚ) },
        { label := "Z4 Threshold", min := (jsRound (mh * 0.80) : ℚ), max := (jsRound (mh * 0.90) : ℚ) },
        { label := "Z5 Anaerobic", min := (jsRound (mh * 0.90) : ℚ), max := mh } ] := rfl

set_option maxHeartbeats 1600000 in
/-- Monotonicity of the rounded zone boundaries under valid athlete
settings (integer `restingHR < maxHR`, `restingHR ≥ 0`): each zone's
stored `min` is at most its `max`, and consecutive `max`es are
non-decreasing. -/
theorem zones_mono (s : UserSettings) (M R : ℤ)
    (hM : s.maxHR = (M : ℚ)) (hR : s.restingHR = (R : ℚ))
    (hR0 : 0 ≤ R) (hRM : R < M) :
    ∀ j, j < 4 →
      ((calculateZones s).getD j default).min ≤ ((calculateZones s).getD j default).max ∧
      ((calculateZones s).getD j default).max ≤ ((calculateZones s).getD (j + 1) default).max := by
  have hRQ : (0 : ℚ) ≤ (R : ℚ) := by exact_mod_cast hR0
  have hRMQ : (R : ℚ) < (M : ℚ) := by exact_mod_cast hRM
  have hRM1 : (R : ℚ) + 1 ≤ (M : ℚ) := by
    have h1 : R + 1 ≤ M := by omega
    exact_mod_cast h1
  rcases s with ⟨mh, rh, me⟩
  obtain rfl : mh = (M : ℚ) := hM
  obtain rfl : rh = (R : ℚ) := hR
  cases me
  case MAX_HR =>
    rw [calculateZones_maxhr]
    intro j hj
    interval_cases j <;>
      simp only [List.getD_cons_zero, List.getD_cons_succ] <;>
      refine ⟨?_, ?_⟩ <;>
      first
        | (apply jsRound_mono; linarith)
        | (apply jsRound_le_intCast; linarith)
  case KARVONEN =>
    rw [calculateZones_karvonen]
    intro j hj
    interval_cases j <;>
      simp only [List.getD_cons_zero, List.getD_cons_succ] <;>
      refine ⟨?_, ?_⟩ <;>
      first
        | (apply jsRound_mono; linarith)
        | (apply jsRound_le_intCast; linarith)

theorem map_seconds_comp (l : List HRZoneDistribution) (P : HRZoneDistribution → ℚ) :
    ((l.map (fun d : HRZoneDistribution => { d with percentage := P d })).map
        (fun d => d.seconds)).sum
      = (l.map (fun d => d.seconds)).sum := by
  rw [List.map_map]
  rfl

theorem percentage_sum_of_pos (l : List HRZoneDistribution) (t : ℚ) (ht : 0 < t) :
    ((l.map (fun d : HRZoneDistribution =>
        { d with percentage := if 0 < t then d.seconds / t * 100 else 0 })).map
      (fun d => d.percentage)).sum
      = (l.map (fun d => d.seconds)).sum / t * 100 := by
  induction l with
  | nil => simp
  | cons d ds ih =>
    simp only [List.map_cons, List.sum_cons, ih]
    rw [if_pos ht]
    ring

/-! ## Claim theorems -/

/-- Claim C1, counterexample: the claim says ingestion of an input with
zero valid samples fails with a `NoValidSamples` error and never
returns a degenerate trace; in fact `parseTCX` on the empty sample list
returns normally, with an empty `points` sequence and a zero-filled
summary. -/
theorem claim_C1_counterexample :
    (parseTCX [] 0).points = [] ∧
    (parseTCX [] 0).summary.totalDistance = 0 ∧
    (parseTCX [] 0).summary.elapsedTime = 0 ∧
    (parseTCX [] 0).summary.movingTime = 0 ∧
    (parseTCX [] 0).summary.avgHR = 0 ∧
    (parseTCX [] 0).summary.maxHR = 0 ∧
    (parseTCX [] 0).summary.avgPace = some 0 := by
  norm_num [parseTCX, accumulate, initAcc, jsRound]

/-- Claim C1, amended: `parseTCX` never fails; on an input whose parse
yields zero valid samples it returns a degenerate trace whose `points`
sequence is empty and whose summary fields are all zero (except the
fixed placeholder `variabilityIndex = 1.05`), for any current clock
value. -/
theorem claim_C1_amended (now : ℚ) :
    (parseTCX [] now).points = [] ∧
    (parseTCX [] now).summary.totalDistance = 0 ∧
    (parseTCX [] now).summary.elapsedTime = 0 ∧
    (parseTCX [] now).summary.movingTime = 0 ∧
    (parseTCX [] now).summary.avgHR = 0 ∧
    (parseTCX [] now).summary.maxHR = 0 ∧
    (parseTCX [] now).summary.totalAscent = 0 ∧
    (parseTCX [] now).summary.totalDescent = 0 ∧
    (parseTCX [] now).summary.avgPace = some 0 ∧
    (parseTCX [] now).summary.maxPace = 0 ∧
    (parseTCX [] now).summary.calories = 0 ∧
    (parseTCX [] now).summary.fitnessScore = 0 ∧
    (parseTCX [] now).summary.intensityFactor = 0 ∧
    (parseTCX [] now).summary.aerobicEfficiency = 0 ∧
    (parseTCX [] now).summary.movementRatio = 0 ∧
    (parseTCX [] now).summary.vam = 0 ∧
    (parseTCX [] now).summary.variabilityIndex = 1.05 ∧
    (parseTCX [] now).summary.trainingEffect = 0 := by
  norm_num [parseTCX, accumulate, initAcc, jsRound]

/-- Claim C2: the claim (and the spec's division-guard policy) say
`avgPace` is `0` when `totalDistance` is `0` and is always finite; the
code guards the division by `movingTime > 0` — the numerator — so a
trace with positive moving time and zero final cumulative distance
makes `avgPace` the non-finite JS value `movingTime / 0 = Infinity`
(modelled as `none`).  Evaluating the code at the failing input
`c2pts`. -/
theorem claim_C2_code_bug :
    (parseTCX c2pts 0).summary.movingTime = 10 ∧
    (parseTCX c2pts 0).summary.totalDistance = 0 ∧
    (parseTCX c2pts 0).summary.avgPace = none := by
  norm_num [c2pts, parseTCX, accumulate, initAcc, parseStep, carryUpdate, elevUpdate,
    motionUpdate, jsDiv]

/-- Claim C5, counterexample: the claim says a pair with a time delta
of exactly 15 seconds and average speed above 0.5 m/s is counted into
moving time; the code's window is strict (`timeDiff < 15`), so the pair
`c5pts` (delta 15 s, speed 2 m/s) contributes nothing. -/
theorem claim_C5_counterexample :
    (0 : ℚ) < 15 ∧ (15 : ℚ) ≤ 15 ∧ (0.5 : ℚ) < 30 / 15 ∧
    (parseTCX c5pts 0).summary.movingTime = 0 ∧
    (parseTCX c5pts 0).summary.movingTime ≠ 15 := by
  norm_num [c5pts, parseTCX, accumulate, initAcc, parseStep, carryUpdate, elevUpdate,
    motionUpdate]

/-- Claim C5, amended: during ingestion the moving time is exactly the
sum, over consecutive sample pairs, of the pair's time delta when that
delta is strictly inside `(0, 15)` seconds — the 15-second gap itself
excluded — and the average speed over the interval exceeds 0.5 m/s;
all other pairs contribute nothing. -/
theorem claim_C5_amended (pts : List TrackPoint) (now : ℚ) :
    (parseTCX pts now).summary.movingTime
      = ((consecutivePairs pts).map (fun pq => movingContrib pq.1 pq.2)).sum := by
  have hp : (parseTCX pts now).summary.movingTime
      = (accumulate initAcc none pts).movingTime := rfl
  have h := accumulate_movingTime pts initAcc none
  simp only [Option.toList_none, List.nil_append] at h
  rw [hp, h]
  simp [initAcc]

/-- Claim C9: `calculateGAP` is total — it returns `0` whenever the
distance delta or the time delta is non-positive, and otherwise a
finite value (never the non-finite `none`), because the adjustment
factor `1 + 3·grade + 10·grade²` is never zero. -/
theorem claim_C9_gap_total (p1 p2 : TrackPoint) :
    (calculateGAP p1 p2).isSome = true ∧
    ((p2.distance.getD 0 - p1.distance.getD 0 ≤ 0 ∨ (p2.time - p1.time) / 1000 ≤ 0) →
      calculateGAP p1 p2 = some 0) ∧
    (∀ g : ℚ, adjFactor g ≠ 0) := by
  have hadj : ∀ g : ℚ, adjFactor g ≠ 0 := by
    intro g
    have h : 0 < adjFactor g := by
      rw [adjFactor]
      nlinarith [sq_nonneg (20 * g + 3)]
    exact ne_of_gt h
  refine ⟨?_, ?_, hadj⟩
  · simp only [calculateGAP]
    split_ifs with h
    · rfl
    · rw [jsDiv, if_neg (hadj _)]
      rfl
  · intro h
    simp only [calculateGAP]
    rw [if_pos h]

/-- Claim C9, witness: a concrete pair with zero distance delta (and a
positive altitude delta) yields `some 0`, a finite value. -/
theorem claim_C9_witness :
    calculateGAP { time := 0, altitude := some 100 } { time := 5000, altitude := some 250 }
        = some 0 ∧
    (calculateGAP { time := 0, altitude := some 100 }
        { time := 5000, altitude := some 250 }).isSome = true := by
  refine ⟨(claim_C9_gap_total _ _).2.1 (Or.inl ?_), (claim_C9_gap_total _ _).1⟩
  norm_num

/-- Claim C7: `calculateTrainingEffect` equals the specification's
piecewise mapping of the zone-3/4/5 seconds (score
`(z3·0.5 + z4·1.5 + z5·3.0)/60`, the five-interval map onto 1.0–5.0,
rounding to one decimal, ceiling 5.0); in particular the mapping sends
`z3 = 1200 s, z4 = 600 s, z5 = 0 s` to `2.8`, and the concrete trace
`c7pts` — which classifies exactly those zone seconds under `s190` —
scores `2.8`. -/
theorem claim_C7_training_effect :
    (∀ (run : RunData) (s : UserSettings),
      calculateTrainingEffect run s
        = trainingEffectSpec
            ((getZoneDistribution run s).getD 2 default).seconds
            ((getZoneDistribution run s).getD 3 default).seconds
            ((getZoneDistribution run s).getD 4 default).seconds) ∧
    trainingEffectSpec 1200 600 0 = 2.8 ∧
    calculateTrainingEffect (mkRun c7pts) s190 = 2.8 := by
  refine ⟨fun run s => rfl, ?_, ?_⟩
  · norm_num [trainingEffectSpec, jsRound, min_def]
  · norm_num [calculateTrainingEffect, getZoneDistribution, initDist_s190, mkRun, c7pts,
      consecutivePairs, zoneStep, truthy, pairAvgHr, pairDuration, zoneIndexOf, findZoneIdx,
      zoneMatch, addSeconds, s190, List.range_succ, jsRound]

/-- Claim C4, counterexample: the claim asserts the zone boundaries are
the raw Karvonen values (`restingHR + HRR × p`) and that for
`maxHR = 190, restingHR = 55` zone 2 is `[136, 149.5)`; the code
rounds every boundary with `Math.round`, so the stored zone-2 upper
bound is `150`, not the raw value `149.5`. -/
theorem claim_C4_counterexample :
    (55 : ℚ) + (190 - 55) * 0.70 = 149.5 ∧
    ((calculateZones s190).getD 1 default).max = 150 ∧
    (150 : ℚ) ≠ 149.5 := by
  norm_num [calculateZones, s190, jsRound]

/-- Claim C4, amended: with the KARVONEN method every stored zone
boundary is `Math.round(restingHR + (maxHR − restingHR) × p)` for the
breakpoints `p ∈ {0.50, 0.60, 0.70, 0.80, 0.90}`, the top bound of
zone 5 is `maxHR` itself (unrounded), and for
`maxHR = 190, restingHR = 55` the zone bands are
`[123,136], [136,150], [150,163], [163,177], [177,190]` — in
particular zone 2 is `[136, 150)`, not `[136, 149.5)`. -/
theorem claim_C4_amended (s : UserSettings) (h : s.method = HRZoneMethod.KARVONEN) :
    (calculateZones s).map (fun z => (z.min, z.max)) =
      [ ((jsRound (s.restingHR + (s.maxHR - s.restingHR) * 0.50) : ℚ),
          (jsRound (s.restingHR + (s.maxHR - s.restingHR) * 0.60) : ℚ)),
        ((jsRound (s.restingHR + (s.maxHR - s.restingHR) * 0.60) : ℚ),
          (jsRound (s.restingHR + (s.maxHR - s.restingHR) * 0.70) : ℚ)),
        ((jsRound (s.restingHR + (s.maxHR - s.restingHR) * 0.70) : ℚ),
          (jsRound (s.restingHR + (s.maxHR - s.restingHR) * 0.80) : ℚ)),
        ((jsRound (s.restingHR + (s.maxHR - s.restingHR) * 0.80) : ℚ),
          (jsRound (s.restingHR + (s.maxHR - s.restingHR) * 0.90) : ℚ)),
        ((jsRound (s.restingHR + (s.maxHR - s.restingHR) * 0.90) : ℚ), s.maxHR) ] ∧
    (calculateZones s190).map (fun z => (z.min, z.max)) =
      [(123, 136), (136, 150), (150, 163), (163, 177), (177, 190)] := by
  constructor
  · rcases s with ⟨mh, rh, me⟩
    obtain rfl : me = HRZoneMethod.KARVONEN := h
    rw [calculateZones_karvonen]
    rfl
  · norm_num [calculateZones, s190, jsRound]

/-- Claim C4, witness: the amended claim instantiated at the
specification's scenario settings `s190`. -/
theorem claim_C4_witness :
    (calculateZones s190).map (fun z => (z.min, z.max)) =
      [(123, 136), (136, 150), (150, 163), (163, 177), (177, 190)] :=
  (claim_C4_amended s190 rfl).2

/-- Claim C3, counterexample: the claim says the five percentages sum
to 100 (±0.01) whenever classified time is positive; on `c3pts` under
`s190` one counted pair (average HR 60) falls below zone 1 and above
no zone, so it inflates `totalValidSeconds` without being credited:
zone 1 holds 10 s of the 20 counted seconds and the percentages sum to
50, not 100. -/
theorem claim_C3_counterexample :
    totalValidSeconds (mkRun c3pts) s190 = 20 ∧
    ((getZoneDistribution (mkRun c3pts) s190).getD 0 default).seconds = 10 ∧
    ((getZoneDistribution (mkRun c3pts) s190).map (fun d => d.percentage)).sum = 50 ∧
    ¬ (100 - 1/100 ≤
        ((getZoneDistribution (mkRun c3pts) s190).map (fun d => d.percentage)).sum) := by
  norm_num [c3pts, mkRun, getZoneDistribution, totalValidSeconds, initDist, calculateZones,
    jsRound, s190, List.enum, List.enumFrom, consecutivePairs, zoneStep, truthy, pairAvgHr,
    pairDuration, zoneIndexOf, findZoneIdx, zoneMatch, addSeconds]

/-- Claim C3, amended: when every counted pair is actually credited to
a zone (its average HR lies in some zone's `[min, max+1)` interval or
is at/above `maxHR`), the five percentages sum to exactly 100 whenever
the counted time is positive; and whenever the counted time is zero,
every percentage is zero.  (Without that proviso, pairs whose average
HR falls below zone 1 inflate the denominator and the sum drops below
100.) -/
theorem claim_C3_amended (run : RunData) (s : UserSettings)
    (hassigned : ∀ pq ∈ consecutivePairs run.points, countedPair pq = true →
      (zoneIndexOf (initDist s) s.maxHR (pairAvgHr pq.1 pq.2)).isSome = true) :
    (0 < totalValidSeconds run s →
      ((getZoneDistribution run s).map (fun d => d.percentage)).sum = 100) ∧
    (totalValidSeconds run s = 0 →
      ∀ d ∈ getZoneDistribution run s, d.percentage = 0) := by
  constructor
  · intro hpos
    have hsum : ((getZoneDistribution run s).map (fun d => d.seconds)).sum
        = totalValidSeconds run s := by
      rw [getZoneDistribution_sum_seconds, totalValidSeconds_eq]
      congr 1
      refine List.map_congr_left (fun pq hpq => ?_)
      rw [assignedDuration, countedDuration]
      by_cases hc : countedPair pq = true
      · rw [if_pos ⟨hc, hassigned pq hpq hc⟩, if_pos hc]
      · rw [if_neg (fun hand => hc hand.1), if_neg hc]
    have hpos2 : 0 < ((consecutivePairs run.points).foldl (zoneStep s.maxHR)
        (initDist s, 0)).2 := hpos
    have hss : (((consecutivePairs run.points).foldl (zoneStep s.maxHR)
        (initDist s, 0)).1.map (fun d => d.seconds)).sum = totalValidSeconds run s := by
      rw [← hsum]
      simp only [getZoneDistribution]
      rw [map_seconds_comp]
    simp only [getZoneDistribution]
    rw [percentage_sum_of_pos _ _ hpos2, hss]
    rw [show ((consecutivePairs run.points).foldl (zoneStep s.maxHR)
        (initDist s, 0)).2 = totalValidSeconds run s from rfl]
    rw [div_self (ne_of_gt hpos), one_mul]
  · intro h0 d hd
    simp only [getZoneDistribution] at hd
    rcases List.mem_map.mp hd with ⟨x, hx, rfl⟩
    have hz : ¬ 0 < ((consecutivePairs run.points).foldl (zoneStep s.maxHR)
        (initDist s, 0)).2 := by
      rw [show ((consecutivePairs run.points).foldl (zoneStep s.maxHR)
          (initDist s, 0)).2 = totalValidSeconds run s from rfl, h0]
      exact lt_irrefl 0
    simp [hz]

/-- Claim C3, witness: the amended claim applied to a run with a single
counted pair (average HR 155, inside zone 3 of `s190`): the
percentages sum to exactly 100. -/
theorem claim_C3_witness :
    ((getZoneDistribution (mkRun c6pts) s190).map (fun d => d.percentage)).sum = 100 := by
  refine (claim_C3_amended (mkRun c6pts) s190 ?_).1 ?_
  · intro pq hpq hc
    simp only [mkRun, c6pts, consecutivePairs] at hpq
    norm_num at hpq
    rw [hpq]
    norm_num [zoneIndexOf, findZoneIdx, zoneMatch, pairAvgHr, initDist, calculateZones,
      jsRound, s190, List.enum, List.enumFrom]
  · norm_num [totalValidSeconds, mkRun, c6pts, consecutivePairs, zoneStep, truthy,
      pairAvgHr, pairDuration, zoneIndexOf, findZoneIdx, zoneMatch, addSeconds,
      initDist, calculateZones, jsRound, s190, List.enum, List.enumFrom]

/-- Claim C6: zone classification counts exactly the consecutive pairs
whose two samples carry (truthy) HR with a time delta strictly inside
`(0, 30)` seconds — `zoneContribution` is zero for every other pair —
and each zone's accumulated seconds is the sum of the counted pairs
assigned to it.  The assignment is characterized in both directions:
(soundness) whenever an index is credited it is the first zone whose
`[min, max + 1)` interval contains the average HR, or the overflow
case; (completeness) a pair whose average HR lies in some zone's
interval IS assigned, to the lowest-indexed containing zone, and a
pair matching no zone IS credited to zone 5 (index 4) exactly when its
average HR is at or above `maxHR` — below `maxHR` it is credited to no
zone at all. -/
theorem claim_C6_classification (run : RunData) (s : UserSettings) (j : Fin 5) :
    (((getZoneDistribution run s).getD j.1 default).seconds
      = ((consecutivePairs run.points).map
          (zoneContribution (initDist s) s.maxHR j.1)).sum) ∧
    (∀ a i, zoneIndexOf (initDist s) s.maxHR a = some i →
      (zoneMatch a ((initDist s).getD i default) = true ∧
        ∀ k, k < i → zoneMatch a ((initDist s).getD k default) = false) ∨
      (s.maxHR ≤ a ∧ i = 4 ∧
        ∀ k, k < 5 → zoneMatch a ((initDist s).getD k default) = false)) ∧
    (∀ a i, i < 5 → zoneMatch a ((initDist s).getD i default) = true →
      ∃ k, k ≤ i ∧ zoneIndexOf (initDist s) s.maxHR a = some k ∧
        zoneMatch a ((initDist s).getD k default) = true) ∧
    (∀ a, (∀ k, k < 5 → zoneMatch a ((initDist s).getD k default) = false) →
      (s.maxHR ≤ a → zoneIndexOf (initDist s) s.maxHR a = some 4) ∧
      (a < s.maxHR → zoneIndexOf (initDist s) s.maxHR a = none)) := by
  refine ⟨?_, ?_, ?_, ?_⟩
  · exact getZoneDistribution_seconds run s j.1 j.2
  · intro a i h
    rw [zoneIndexOf] at h
    cases hf : findZoneIdx a (initDist s) with
    | some v =>
      rw [hf] at h
      cases h
      exact Or.inl ⟨(findZoneIdx_some hf).2.1, (findZoneIdx_some hf).2.2⟩
    | none =>
      rw [hf] at h
      split_ifs at h with hm
      cases h
      refine Or.inr ⟨hm, ?_, ?_⟩
      · rw [initDist_length]
      · intro k hk
        exact findZoneIdx_none hf k (by rw [initDist_length]; omega)
  · intro a i hi hm
    have hi' : i < (initDist s).length := by rw [initDist_length]; omega
    obtain ⟨k, hk, hfk⟩ := findZoneIdx_first hi' hm
    refine ⟨k, hk, ?_, (findZoneIdx_some hfk).2.1⟩
    rw [zoneIndexOf, hfk]
  · intro a hnone
    have hf : findZoneIdx a (initDist s) = none := by
      cases hf2 : findZoneIdx a (initDist s) with
      | none => rfl
      | some v =>
        have hv5 : v < 5 := by
          have := (findZoneIdx_some hf2).1
          rwa [initDist_length] at this
        have hmv := (findZoneIdx_some hf2).2.1
        rw [hnone v hv5] at hmv
        exact absurd hmv Bool.false_ne_true
    constructor
    · intro hma
      rw [zoneIndexOf, hf, if_pos hma, initDist_length]
    · intro hma
      rw [zoneIndexOf, hf, if_neg (not_le.mpr hma)]

/-- Claim C6, witness: the classification theorem instantiated at a
single-pair run (average HR 155 under `s190`): its seconds are the
contribution sum; the soundness characterization holds at
`a = 155, i = 2`; the completeness direction assigns the matching pair
(average HR 155, inside zone 3's interval) to index 2; and an average
HR of 200, matching no zone interval and at/above `maxHR = 190`, is
credited to zone 5 (index 4). -/
theorem claim_C6_witness :
    (((getZoneDistribution (mkRun c6pts) s190).getD 2 default).seconds
      = ((consecutivePairs (mkRun c6pts).points).map
          (zoneContribution (initDist s190) s190.maxHR 2)).sum) ∧
    ((zoneMatch 155 ((initDist s190).getD 2 default) = true ∧
        ∀ k, k < 2 → zoneMatch 155 ((initDist s190).getD k default) = false) ∨
      (s190.maxHR ≤ 155 ∧ 2 = 4 ∧
        ∀ k, k < 5 → zoneMatch 155 ((initDist s190).getD k default) = false)) ∧
    (∃ k, k ≤ 2 ∧ zoneIndexOf (initDist s190) s190.maxHR 155 = some k ∧
      zoneMatch 155 ((initDist s190).getD k default) = true) ∧
    zoneIndexOf (initDist s190) s190.maxHR 200 = some 4 :=
  ⟨(claim_C6_classification (mkRun c6pts) s190 ⟨2, by omega⟩).1,
   (claim_C6_classification (mkRun c6pts) s190 ⟨2, by omega⟩).2.1 155 2 (by
      norm_num [zoneIndexOf, findZoneIdx, zoneMatch, initDist, calculateZones, jsRound,
        s190, List.enum, List.enumFrom]),
   (claim_C6_classification (mkRun c6pts) s190 ⟨2, by omega⟩).2.2.1 155 2 (by omega) (by
      norm_num [zoneMatch, initDist, calculateZones, jsRound, s190, List.enum,
        List.enumFrom]),
   ((claim_C6_classification (mkRun c6pts) s190 ⟨2, by omega⟩).2.2.2 200 (by
      intro k hk
      interval_cases k <;>
        norm_num [zoneMatch, initDist, calculateZones, jsRound, s190, List.enum,
          List.enumFrom])).1 (by norm_num [s190])⟩

/-- Claim C10 (implicit): under valid athlete settings (integer
`0 ≤ restingHR < maxHR`), adjacent zones returned by `calculateZones`
share their boundary value (zone j's stored `max` is literally zone
j+1's `min` for either method), so the classification intervals
`[min, max + 1)` of adjacent zones overlap exactly on the one-unit band
`[max_j, max_j + 1)`; and a counted pair whose average HR lies in such
a shared band is credited by `getZoneDistribution` to the
lowest-indexed matching zone (first match wins), never the higher
one. -/
theorem claim_C10_boundary_overlap (s : UserSettings) (M R : ℤ)
    (hM : s.maxHR = (M : ℚ)) (hR : s.restingHR = (R : ℚ))
    (hR0 : 0 ≤ R) (hRM : R < M) :
    (∀ j : Fin 4, ((calculateZones s).getD j.1 default).max
        = ((calculateZones s).getD (j.1 + 1) default).min) ∧
    (∀ j : Fin 4, ∀ x : ℚ,
      (zoneMatch x ((initDist s).getD j.1 default) = true ∧
        zoneMatch x ((initDist s).getD (j.1 + 1) default) = true) ↔
      (((initDist s).getD j.1 default).max ≤ x ∧
        x < ((initDist s).getD j.1 default).max + 1)) ∧
    (∀ (p1 p2 : TrackPoint) (j : Fin 4),
      countedPair (p1, p2) = true →
      zoneMatch (pairAvgHr p1 p2) ((initDist s).getD j.1 default) = true →
      zoneMatch (pairAvgHr p1 p2) ((initDist s).getD (j.1 + 1) default) = true →
      ∃ k, k ≤ j.1 ∧
        zoneIndexOf (initDist s) s.maxHR (pairAvgHr p1 p2) = some k ∧
        ((getZoneDistribution (mkRun [p1, p2]) s).getD k default).seconds
          = pairDuration p1 p2 ∧
        (∀ i, i < 5 → i ≠ k →
          ((getZoneDistribution (mkRun [p1, p2]) s).getD i default).seconds = 0)) := by
  have hadj : ∀ j : Fin 4, ((calculateZones s).getD j.1 default).max
      = ((calculateZones s).getD (j.1 + 1) default).min := by
    rcases s with ⟨mh, rh, me⟩
    cases me <;> (intro j; fin_cases j <;> rfl)
  have hmono := zones_mono s M R hM hR hR0 hRM
  have hminmax : ∀ j, j < 4 →
      ((initDist s).getD j default).min ≤ ((initDist s).getD j default).max := by
    intro j hj
    rw [initDist_getD_min s j (by omega), initDist_getD_max s j (by omega)]
    exact (hmono j hj).1
  have hmaxmax : ∀ j, j < 4 →
      ((initDist s).getD j default).max ≤ ((initDist s).getD (j + 1) default).max := by
    intro j hj
    rw [initDist_getD_max s j (by omega), initDist_getD_max s (j + 1) (by omega)]
    exact (hmono j hj).2
  have hadj2 : ∀ j, j < 4 →
      ((initDist s).getD j default).max = ((initDist s).getD (j + 1) default).min := by
    intro j hj
    rw [initDist_getD_max s j (by omega), initDist_getD_min s (j + 1) (by omega)]
    exact hadj ⟨j, hj⟩
  refine ⟨hadj, ?_, ?_⟩
  · intro j x
    have hj4 := j.2
    constructor
    · rintro ⟨h1, h2⟩
      rw [zoneMatch_iff] at h1 h2
      refine ⟨?_, h1.2⟩
      have h21 := h2.1
      rw [← hadj2 j.1 hj4] at h21
      exact h21
    · rintro ⟨hmx, hx1⟩
      constructor
      · rw [zoneMatch_iff]
        exact ⟨le_trans (hminmax j.1 hj4) hmx, hx1⟩
      · rw [zoneMatch_iff]
        refine ⟨?_, ?_⟩
        · rw [← hadj2 j.1 hj4]
          exact hmx
        · have := hmaxmax j.1 hj4
          linarith
  · intro p1 p2 j hc hm1 hm2
    have hj4 := j.2
    have hj5 : j.1 < (initDist s).length := by rw [initDist_length]; omega
    obtain ⟨k, hk, hfk⟩ := findZoneIdx_first hj5 hm1
    have hio : zoneIndexOf (initDist s) s.maxHR (pairAvgHr p1 p2) = some k := by
      rw [zoneIndexOf, hfk]
    have hk5 : k < 5 := by omega
    have hpairs : consecutivePairs (mkRun [p1, p2]).points = [(p1, p2)] := rfl
    refine ⟨k, hk, hio, ?_, ?_⟩
    · rw [getZoneDistribution_seconds _ _ _ hk5, hpairs]
      simp only [List.map_cons, List.map_nil, List.sum_cons, List.sum_nil, add_zero]
      rw [zoneContribution, if_pos ⟨hc, hio⟩]
    · intro i hi5 hik
      rw [getZoneDistribution_seconds _ _ _ hi5, hpairs]
      simp only [List.map_cons, List.map_nil, List.sum_cons, List.sum_nil, add_zero]
      rw [zoneContribution, if_neg]
      rintro ⟨_, habs⟩
      rw [hio] at habs
      exact hik (Option.some_inj.mp habs).symm

/-- Claim C10, witness: under `s190` the pair with average HR 136 lies
in the shared one-unit band of zones 1 and 2 (`[136, 137)`), and
`getZoneDistribution` credits its 10 seconds to zone 1 (index 0), the
lower of the two. -/
theorem claim_C10_witness :
    ∃ k, k ≤ 0 ∧
      zoneIndexOf (initDist s190) s190.maxHR
          (pairAvgHr { time := 0, hr := some 136 } { time := 10000, hr := some 136 })
        = some k ∧
      ((getZoneDistribution (mkRun [{ time := 0, hr := some 136 },
            { time := 10000, hr := some 136 }]) s190).getD k default).seconds
        = pairDuration { time := 0, hr := some 136 } { time := 10000, hr := some 136 } ∧
      (∀ i, i < 5 → i ≠ k →
        ((getZoneDistribution (mkRun [{ time := 0, hr := some 136 },
              { time := 10000, hr := some 136 }]) s190).getD i default).seconds = 0) := by
  refine (claim_C10_boundary_overlap s190 190 55 (by norm_num [s190]) (by norm_num [s190])
      (by omega) (by omega)).2.2 _ _ ⟨0, by omega⟩ ?_ ?_ ?_
  · norm_num [countedPair, truthy, pairDuration]
  · norm_num [zoneMatch, pairAvgHr, initDist, calculateZones, jsRound, s190,
      List.enum, List.enumFrom]
  · norm_num [zoneMatch, pairAvgHr, initDist, calculateZones, jsRound, s190,
      List.enum, List.enumFrom]

theorem getEfficiency_eq_some (pts : List TrackPoint)
    (h1 : (effAccOf pts).count ≠ 0) (h2 : (effAccOf pts).distSum ≠ 0)
    (h3 : (effAccOf pts).timeSum ≠ 0) (h4 : (effAccOf pts).hrSum ≠ 0) :
    ∃ e : ℚ, getEfficiency pts = some e ∧ e ≠ 0 := by
  have hpace : ((effAccOf pts).timeSum / 60) / ((effAccOf pts).distSum / 1000) ≠ 0 :=
    div_ne_zero (div_ne_zero h3 (by norm_num)) (div_ne_zero h2 (by norm_num))
  have havg : (effAccOf pts).hrSum / ((effAccOf pts).count : ℚ) ≠ 0 :=
    div_ne_zero h4 (Nat.cast_ne_zero.mpr h1)
  have heff : (1 / (((effAccOf pts).timeSum / 60) / ((effAccOf pts).distSum / 1000)))
      / ((effAccOf pts).hrSum / ((effAccOf pts).count : ℚ)) ≠ 0 :=
    div_ne_zero (one_div_ne_zero hpace) havg
  refine ⟨_, ?_, heff⟩
  simp only [getEfficiency]
  rw [if_neg (by push_neg; exact ⟨h1, h2⟩)]
  simp [jsDiv, hpace, havg]

/-- Claim C8, amended: `calculateDecoupling` is the JS `null` for every
trace of fewer than 100 samples and whenever either half's efficiency
is `0`; and with at least 100 samples it returns the finite percentage
`(eff1 − eff2)/eff1 × 100` provided each half (split at
`⌊n/2⌋`) accumulates a non-zero pair count, distance sum, HR sum *and*
time sum.  (The claim as stated omits the time-sum condition: with all
time deltas zero the efficiencies are the non-finite `1/0`, and the
result is the JS `NaN`, not a numeric percentage — see the
counterexample.) -/
theorem claim_C8_amended :
    (∀ run : RunData, run.points.length < 100 → calculateDecoupling run = none) ∧
    (∀ run : RunData, ¬ run.points.length < 100 →
      (getEfficiency (run.points.take (run.points.length / 2)) = some 0 ∨
        getEfficiency (run.points.drop (run.points.length / 2)) = some 0) →
      calculateDecoupling run = none) ∧
    (∀ run : RunData, ¬ run.points.length < 100 →
      ∀ st1 st2 : EffAcc,
        st1 = effAccOf (run.points.take (run.points.length / 2)) →
        st2 = effAccOf (run.points.drop (run.points.length / 2)) →
        st1.count ≠ 0 → st1.distSum ≠ 0 → st1.timeSum ≠ 0 → st1.hrSum ≠ 0 →
        st2.count ≠ 0 → st2.distSum ≠ 0 → st2.timeSum ≠ 0 → st2.hrSum ≠ 0 →
        ∃ e1 e2,
          getEfficiency (run.points.take (run.points.length / 2)) = some e1 ∧
          getEfficiency (run.points.drop (run.points.length / 2)) = some e2 ∧
          e1 ≠ 0 ∧
          calculateDecoupling run = some (some ((e1 - e2) / e1 * 100))) := by
  refine ⟨?_, ?_, ?_⟩
  · intro run h
    simp only [calculateDecoupling]
    rw [if_pos h]
  · intro run hlen hdisj
    simp only [calculateDecoupling]
    rw [if_neg hlen, if_pos hdisj]
  · intro run hlen st1 st2 hst1 hst2 h1c h1d h1t h1h h2c h2d h2t h2h
    subst hst1
    subst hst2
    obtain ⟨e1, he1, hne1⟩ := getEfficiency_eq_some _ h1c h1d h1t h1h
    obtain ⟨e2, he2, hne2⟩ := getEfficiency_eq_some _ h2c h2d h2t h2h
    refine ⟨e1, e2, he1, he2, hne1, ?_⟩
    simp only [calculateDecoupling]
    rw [if_neg hlen, he1, he2]
    rw [if_neg (by
      rintro (h | h)
      · exact hne1 (Option.some_inj.mp h)
      · exact hne2 (Option.some_inj.mp h))]
    simp [jsDiv, hne1]

set_option maxHeartbeats 1000000 in
/-- Claim C8, counterexample: `c8aPts` has 100 samples and non-zero
classified distance and HR in both halves — the claim's hypotheses —
yet both time sums are zero, each half's efficiency is the non-finite
`1/0` (JS `Infinity`), and `calculateDecoupling` returns `some none`
(the JS `NaN`), not the promised numeric percentage. -/
theorem claim_C8_counterexample :
    (mkRun c8aPts).points.length = 100 ∧
    (effAccOf ((mkRun c8aPts).points.take 50)).distSum = 49 ∧
    (effAccOf ((mkRun c8aPts).points.take 50)).hrSum = 4900 ∧
    (effAccOf ((mkRun c8aPts).points.drop 50)).distSum = 49 ∧
    (effAccOf ((mkRun c8aPts).points.drop 50)).hrSum = 4900 ∧
    calculateDecoupling (mkRun c8aPts) = some none := by
  have hlen : (mkRun c8aPts).points.length = 100 := by decide
  have ha1 : effAccOf ((mkRun c8aPts).points.take 50)
      = { hrSum := 4900, distSum := 49, timeSum := 0, count := 49 } := by
    norm_num [mkRun, c8aPts, effAccOf, consecutivePairs, effStep, truthy, List.range_succ]
  have ha2 : effAccOf ((mkRun c8aPts).points.drop 50)
      = { hrSum := 4900, distSum := 49, timeSum := 0, count := 49 } := by
    norm_num [mkRun, c8aPts, effAccOf, consecutivePairs, effStep, truthy, List.range_succ]
  have heff1 : getEfficiency ((mkRun c8aPts).points.take 50) = none := by
    simp only [getEfficiency, ha1]
    norm_num [jsDiv]
  have heff2 : getEfficiency ((mkRun c8aPts).points.drop 50) = none := by
    simp only [getEfficiency, ha2]
    norm_num [jsDiv]
  refine ⟨hlen, ?_, ?_, ?_, ?_, ?_⟩
  · rw [ha1]
  · rw [ha1]
  · rw [ha2]
  · rw [ha2]
  · simp only [calculateDecoupling, hlen]
    norm_num [heff1, heff2]
    exact fun h => Option.noConfusion h

set_option maxHeartbeats 1000000 in
/-- Claim C8, witness: the amended claim applied to the well-formed
100-sample trace `c8bPts`, whose halves have equal efficiency — a
finite numeric decoupling is returned. -/
theorem claim_C8_witness :
    ∃ e1 e2,
      getEfficiency ((mkRun c8bPts).points.take ((mkRun c8bPts).points.length / 2))
        = some e1 ∧
      getEfficiency ((mkRun c8bPts).points.drop ((mkRun c8bPts).points.length / 2))
        = some e2 ∧
      e1 ≠ 0 ∧
      calculateDecoupling (mkRun c8bPts) = some (some ((e1 - e2) / e1 * 100)) := by
  have hacc1 : effAccOf ((mkRun c8bPts).points.take ((mkRun c8bPts).points.length / 2))
      = { hrSum := 4900, distSum := 49, timeSum := 49, count := 49 } := by
    norm_num [mkRun, c8bPts, effAccOf, consecutivePairs, effStep, truthy, List.range_succ]
  have hacc2 : effAccOf ((mkRun c8bPts).points.drop ((mkRun c8bPts).points.length / 2))
      = { hrSum := 4900, distSum := 49, timeSum := 49, count := 49 } := by
    norm_num [mkRun, c8bPts, effAccOf, consecutivePairs, effStep, truthy, List.range_succ]
  have hlen : (mkRun c8bPts).points.length = 100 := by decide
  refine claim_C8_amended.2.2 (mkRun c8bPts) (by rw [hlen]; omega) _ _
    hacc1.symm hacc2.symm ?_ ?_ ?_ ?_ ?_ ?_ ?_ ?_ <;> norm_num
